import Mathlib

/-!
Verification development for the `uran` manual-testing workflow tracker.

The relational data model is embedded from
`src/backend/migrations/0002_controlled_manual_workflow.up.sql`: each table
becomes a structure, each CHECK / UNIQUE / FOREIGN KEY constraint relevant to
the verified properties becomes a conjunct of a well-formedness predicate on
a database snapshot.  Frontend logic is embedded from
`src/frontend/src/components/common/StatusChip.tsx` (the StatusChip component
and the App-level checklist handlers bundled in that file) and from the
RunChecklist / FailReasonSelect components.

The backend operation layer (Rust/Axum) is not part of the sources; the
operations `start`, `finish`, `lock`, `recordResult`, `addItem`,
`removeItem`, `attach`, `publishVersion` and friends are therefore modelled
from the specification (sections 4.1-4.5 of the spec), each marked
`Modelled from the spec:` in its doc comment.
-/

namespace Uran

/-- Enumerated type `run_status` from migration 0002:
`'draft' | 'in_progress' | 'done' | 'locked'`. -/
inductive RunStatus
  | draft
  | in_progress
  | done
  | locked
deriving DecidableEq, Repr

/-- Enumerated type `result_status` from migration 0002: `'ok' | 'fail' | 'na'`. -/
inductive ResultStatus
  | ok
  | fail
  | na
deriving DecidableEq, Repr

/-- Error taxonomy of the spec (section 7). -/
inductive Err
  | NotFound
  | Conflict
  | InvalidTransition
  | RunLocked
  | InvalidScope
  | Forbidden
deriving DecidableEq, Repr

/-- Row of table `testcases` (columns relevant to the claims). -/
structure TestCase where
  id : Nat
  suiteId : Nat
  key : String
  title : String
  isRequired : Bool
  isArchived : Bool
deriving DecidableEq, Repr

/-- Content columns of a `testcase_versions` row (`summary`, `preconditions`,
`steps_json`, `expected_json`), the JSON payloads kept as opaque strings. -/
structure VersionContent where
  summary : String
  preconditions : String
  stepsJson : String
  expectedJson : String
deriving DecidableEq, Repr

/-- Row of table `testcase_versions`. -/
structure TestCaseVersion where
  id : Nat
  testcaseId : Nat
  versionNumber : Nat
  content : VersionContent
  createdAt : Nat
deriving DecidableEq, Repr

/-- Row of table `runs` (columns relevant to the claims). -/
structure Run where
  id : Nat
  projectId : Nat
  assetId : Option Nat
  templateId : Option Nat
  status : RunStatus
  executedBy : Nat
  startedAt : Option Nat
  finishedAt : Option Nat
  lockedAt : Option Nat
  lockedBy : Option Nat
  correctionOfRunId : Option Nat
deriving DecidableEq, Repr

/-- Row of table `run_items`. -/
structure RunItem where
  id : Nat
  runId : Nat
  testcaseVersionId : Nat
  position : Nat
  isRequired : Bool
deriving DecidableEq, Repr

/-- Row of table `fail_reasons`. -/
structure FailReason where
  code : String
  title : String
  description : String
  isActive : Bool
deriving DecidableEq, Repr

/-- Row of table `run_results`. -/
structure RunResult where
  id : Nat
  runItemId : Nat
  status : ResultStatus
  failReasonCode : Option String
  comment : String
  updatedBy : Option Nat
  updatedAt : Nat
deriving DecidableEq, Repr

/-- Row of table `attachments` (columns relevant to the claims). -/
structure Attachment where
  id : Nat
  runId : Option Nat
  runResultId : Option Nat
  storageKey : String
  mimeType : String
  sizeBytes : Nat
deriving DecidableEq, Repr

/-- A snapshot of the database tables introduced by migration 0002. -/
structure DB where
  testcases : List TestCase
  versions : List TestCaseVersion
  runs : List Run
  runItems : List RunItem
  failReasons : List FailReason
  runResults : List RunResult
  attachments : List Attachment
deriving DecidableEq, Repr

/-- Constraint `chk_runs_status_timestamps` of table `runs`, transcribed
clause for clause from migration 0002 lines 176-182. -/
abbrev chkRunsStatusTimestamps (r : Run) : Prop :=
  (r.status = RunStatus.draft) ∨
  (r.status = RunStatus.in_progress ∧ r.startedAt ≠ none) ∨
  (r.status = RunStatus.done ∧ r.startedAt ≠ none ∧ r.finishedAt ≠ none) ∨
  (r.status = RunStatus.locked ∧ r.startedAt ≠ none ∧ r.finishedAt ≠ none ∧
    r.lockedAt ≠ none)

/-- Constraint `chk_attachments_scope` of table `attachments`:
`run_id IS NOT NULL OR run_result_id IS NOT NULL`. -/
abbrev chkAttachmentsScope (a : Attachment) : Prop :=
  a.runId ≠ none ∨ a.runResultId ≠ none

/-- Constraints of `testcase_versions`: primary key on `id`,
`UNIQUE (testcase_id, version_number)`, `CHECK (version_number > 0)`, and the
foreign key `testcase_id REFERENCES testcases(id)`. -/
abbrev VersionsWF (db : DB) : Prop :=
  (db.versions.map TestCaseVersion.id).Nodup ∧
  (db.versions.map fun v => (v.testcaseId, v.versionNumber)).Nodup ∧
  ∀ v ∈ db.versions, 0 < v.versionNumber ∧ ∃ tc ∈ db.testcases, tc.id = v.testcaseId

/-- Constraints of `runs`: primary key on `id` and `chk_runs_status_timestamps`. -/
abbrev RunsWF (db : DB) : Prop :=
  (db.runs.map Run.id).Nodup ∧ ∀ r ∈ db.runs, chkRunsStatusTimestamps r

/-- Constraints of `run_items`: primary key on `id`,
`UNIQUE (run_id, testcase_version_id)`, and the foreign keys
`run_id REFERENCES runs(id)` and
`testcase_version_id REFERENCES testcase_versions(id)` (both NOT NULL). -/
abbrev RunItemsWF (db : DB) : Prop :=
  (db.runItems.map RunItem.id).Nodup ∧
  (db.runItems.map fun i => (i.runId, i.testcaseVersionId)).Nodup ∧
  ∀ i ∈ db.runItems,
    (∃ r ∈ db.runs, r.id = i.runId) ∧ ∃ v ∈ db.versions, v.id = i.testcaseVersionId

/-- Constraints of `run_results`: primary key on `id`, `UNIQUE (run_item_id)`,
the NOT NULL foreign key `run_item_id REFERENCES run_items(id)`, and the
nullable foreign key `fail_reason_code REFERENCES fail_reasons(code)`. -/
abbrev RunResultsWF (db : DB) : Prop :=
  (db.runResults.map RunResult.id).Nodup ∧
  (db.runResults.map RunResult.runItemId).Nodup ∧
  ∀ res ∈ db.runResults,
    (∃ i ∈ db.runItems, i.id = res.runItemId) ∧
    ∀ c ∈ res.failReasonCode, ∃ fr ∈ db.failReasons, fr.code = c

/-- Constraint of `fail_reasons`: primary key on `code`. -/
abbrev FailReasonsWF (db : DB) : Prop :=
  (db.failReasons.map FailReason.code).Nodup

/-- Constraints of `attachments`: primary key on `id`,
`chk_attachments_scope`, and the nullable foreign keys to `runs` and
`run_results`. -/
abbrev AttachmentsWF (db : DB) : Prop :=
  (db.attachments.map Attachment.id).Nodup ∧
  ∀ a ∈ db.attachments,
    chkAttachmentsScope a ∧
    (∀ rid ∈ a.runId, ∃ r ∈ db.runs, r.id = rid) ∧
    ∀ resid ∈ a.runResultId, ∃ res ∈ db.runResults, res.id = resid

/-- Well-formed database snapshot: all schema constraints of migration 0002
that are relevant to the verified claims hold. -/
abbrev WF (db : DB) : Prop :=
  VersionsWF db ∧ RunsWF db ∧ RunItemsWF db ∧ RunResultsWF db ∧
  FailReasonsWF db ∧ AttachmentsWF db

end Uran

section UranFrontend

namespace Uran

/-- The `kind` discriminator of `StatusChip` (`'run' | 'result' | 'level'`). -/
inductive StatusKind
  | run
  | result
  | level
deriving DecidableEq, Repr

/-- Rendered chip: the props handed to the MUI `Chip` element by `StatusChip`. -/
structure ChipProps where
  size : String
  label : String
  color : String
  variant : String
deriving DecidableEq, Repr

/-- ASCII lowercasing of a string, character by character
(`String.toLowerCase` of the source values, which are ASCII). -/
def toLowerStr (s : String) : String :=
  String.mk (s.data.map Char.toLower)

/-- Strip leading and trailing whitespace (`String.trim` of the source). -/
def trimStr (s : String) : String :=
  String.mk (((s.data.dropWhile Char.isWhitespace).reverse.dropWhile
    Char.isWhitespace).reverse)

/-- The `normalize` helper of `StatusChip.tsx`: `value.trim().toLowerCase()`. -/
def normalize (value : String) : String :=
  toLowerStr (trimStr value)

/-- The `StatusChip` component of
`src/frontend/src/components/common/StatusChip.tsx`, returning the props of
the chip it renders. -/
def statusChip (kind : StatusKind) (value : String) (size : String) : ChipProps :=
  match kind with
  | StatusKind.run =>
    if normalize value = "in_progress" then ⟨size, "in_progress", "info", "filled"⟩
    else if normalize value = "done" then ⟨size, "done", "success", "filled"⟩
    else if normalize value = "locked" then ⟨size, "locked", "warning", "filled"⟩
    else ⟨size, "draft", "default", "outlined"⟩
  | StatusKind.result =>
    if normalize value = "ok" then ⟨size, "OK", "success", "filled"⟩
    else if normalize value = "fail" then ⟨size, "FAIL", "error", "filled"⟩
    else ⟨size, "NA", "default", "outlined"⟩
  | StatusKind.level =>
    if normalize value = "l0" then ⟨size, "L0", "error", "filled"⟩
    else if normalize value = "l1" then ⟨size, "L1", "warning", "filled"⟩
    else ⟨size, "L2", "default", "outlined"⟩

/-- `ChecklistStatus` of `RunChecklist.tsx` is the literal union
`'ok' | 'fail' | 'na'`, i.e. the same carrier as `result_status`. -/
abbrev ChecklistStatus := ResultStatus

/-- `ChecklistItem` of `RunChecklist.tsx`. -/
structure ChecklistItem where
  id : String
  name : String
  level : String
  status : ChecklistStatus
  comment : String
  failReasonCode : String
deriving DecidableEq, Repr

/-- The partial update object passed to `updateRunResult` in the App
component (`Partial<ChecklistItem>` restricted to the fields it reads). -/
structure ChecklistPatch where
  status : Option ChecklistStatus
  failReasonCode : Option String
  comment : Option String
deriving DecidableEq, Repr

/-- The JSON body `{ status, failReasonCode, comment }` that `updateRunResult`
sends in its PATCH request. -/
structure ResultUpdateRequest where
  status : ChecklistStatus
  failReasonCode : String
  comment : String
deriving DecidableEq, Repr

/-- The local-state update performed by the `onFailReasonChange` handler in
the App component: map over the checklist and replace the matching item by
`{ ...item, failReasonCode, status: 'fail' }`. -/
def applyFailReasonChange (checklist : List ChecklistItem) (itemId : String)
    (failReasonCode : String) : List ChecklistItem :=
  checklist.map fun item =>
    if item.id = itemId then
      { item with failReasonCode := failReasonCode, status := ResultStatus.fail }
    else item

/-- The request body computed by `updateRunResult`: it looks the item up in
the (pre-update) checklist and fills each field from the patch, falling back
to the target item (`next.status || target.status`,
`next.failReasonCode ?? target.failReasonCode`,
`next.comment ?? target.comment`); no request is sent when the item is
missing. -/
def updateRunResultRequest (checklist : List ChecklistItem) (itemId : String)
    (next : ChecklistPatch) : Option ResultUpdateRequest :=
  match checklist.find? (fun item => item.id = itemId) with
  | none => none
  | some target =>
    some { status := next.status.getD target.status,
           failReasonCode := next.failReasonCode.getD target.failReasonCode,
           comment := next.comment.getD target.comment }

/-- The request issued by the `onFailReasonChange` handler:
`updateRunResult(itemId, { failReasonCode, status: 'fail' })`. -/
def onFailReasonChangeRequest (checklist : List ChecklistItem) (itemId : String)
    (failReasonCode : String) : Option ResultUpdateRequest :=
  updateRunResultRequest checklist itemId
    { status := some ResultStatus.fail, failReasonCode := some failReasonCode,
      comment := none }

/-- `FailReasonOption` of `FailReasonSelect.tsx`. -/
structure FailReasonOption where
  code : String
  title : String
  description : Option String
deriving DecidableEq, Repr

/-- The `mergedOptions` memo of `FailReasonSelect.tsx`: with no current value
the fetched options are shown as-is; a currently held value missing from the
fetched options is appended as an extra option `{ code: value, title: value }`. -/
def mergedOptions (options : List FailReasonOption) (value : String) :
    List FailReasonOption :=
  if value = "" then options
  else if options.any (fun opt => opt.code = value) then options
  else options ++ [{ code := value, title := value, description := none }]

end Uran

end UranFrontend

namespace Uran

/-- Find the run with the given id. -/
def findRun (db : DB) (rid : Nat) : Option Run :=
  db.runs.find? fun r => r.id = rid

/-- Replace the run with the given id. -/
def updateRun (db : DB) (rid : Nat) (f : Run → Run) : DB :=
  { db with runs := db.runs.map fun r => if r.id = rid then f r else r }

/-- Modelled from the spec: a run is created in `draft` with none of the
lifecycle timestamps set (spec 4.3, missing Rust backend). -/
def mkDraftRun (id projectId : Nat) (assetId templateId : Option Nat)
    (executedBy : Nat) (correctionOf : Option Nat) : Run :=
  { id := id, projectId := projectId, assetId := assetId,
    templateId := templateId, status := RunStatus.draft,
    executedBy := executedBy, startedAt := none, finishedAt := none,
    lockedAt := none, lockedBy := none, correctionOfRunId := correctionOf }

/-- Modelled from the spec: the run-level effect of `start(run)` —
`draft → in_progress`, setting `started_at = now`, `InvalidTransition`
otherwise (spec 4.3, missing Rust backend). -/
def startRunAux (r : Run) (now : Nat) : Except Err Run :=
  if r.status = RunStatus.draft then
    Except.ok { r with status := RunStatus.in_progress, startedAt := some now }
  else Except.error Err.InvalidTransition

/-- Modelled from the spec: the run-level effect of `finish(run)` —
`in_progress → done`, setting `finished_at = now`, `InvalidTransition`
otherwise (spec 4.3, missing Rust backend). -/
def finishRunAux (r : Run) (now : Nat) : Except Err Run :=
  if r.status = RunStatus.in_progress then
    Except.ok { r with status := RunStatus.done, finishedAt := some now }
  else Except.error Err.InvalidTransition

/-- Modelled from the spec: the run-level effect of `lock(run, actor)` —
`done → locked`, setting `locked_at` and `locked_by`, `InvalidTransition`
otherwise (spec 4.3, missing Rust backend). -/
def lockRunAux (r : Run) (actor now : Nat) : Except Err Run :=
  if r.status = RunStatus.done then
    Except.ok { r with status := RunStatus.locked, lockedAt := some now,
                       lockedBy := some actor }
  else Except.error Err.InvalidTransition

/-- Modelled from the spec: `start(run)` on the database (spec 4.3). -/
def startRun (db : DB) (rid now : Nat) : Except Err DB :=
  match findRun db rid with
  | none => Except.error Err.NotFound
  | some r =>
    match startRunAux r now with
    | Except.error e => Except.error e
    | Except.ok r1 => Except.ok (updateRun db rid fun _ => r1)

/-- Modelled from the spec: `finish(run)` on the database; the check reads
only the run row, so outstanding `na` results do not block it (spec 4.3). -/
def finishRun (db : DB) (rid now : Nat) : Except Err DB :=
  match findRun db rid with
  | none => Except.error Err.NotFound
  | some r =>
    match finishRunAux r now with
    | Except.error e => Except.error e
    | Except.ok r1 => Except.ok (updateRun db rid fun _ => r1)

/-- Modelled from the spec: `lock(run, actor)` on the database (spec 4.3). -/
def lockRun (db : DB) (rid actor now : Nat) : Except Err DB :=
  match findRun db rid with
  | none => Except.error Err.NotFound
  | some r =>
    match lockRunAux r actor now with
    | Except.error e => Except.error e
    | Except.ok r1 => Except.ok (updateRun db rid fun _ => r1)

/-- Modelled from the spec: `recordResult(run, item, status, failReasonCode?,
comment)` — fails with `RunLocked` on a locked run, `InvalidTransition` when
the run is not `in_progress`, `NotFound` when the item does not belong to the
run; otherwise upserts the item's result (spec 4.3 and section 8). -/
def recordResult (db : DB) (rid itemId : Nat) (st : ResultStatus)
    (reason : Option String) (comment : String) (uid now newResultId : Nat) :
    Except Err DB :=
  match findRun db rid with
  | none => Except.error Err.NotFound
  | some r =>
    if r.status = RunStatus.locked then Except.error Err.RunLocked
    else if r.status ≠ RunStatus.in_progress then Except.error Err.InvalidTransition
    else
      match db.runItems.find? (fun i => i.id = itemId ∧ i.runId = rid) with
      | none => Except.error Err.NotFound
      | some _ =>
        if db.runResults.any (fun res => res.runItemId = itemId) then
          Except.ok { db with runResults := db.runResults.map fun res =>
            if res.runItemId = itemId then
              { res with status := st, failReasonCode := reason,
                         comment := comment, updatedBy := some uid,
                         updatedAt := now }
            else res }
        else
          Except.ok { db with runResults := db.runResults ++
            [⟨newResultId, itemId, st, reason, comment, some uid, now⟩] }

/-- Modelled from the schema and spec: a raw insert into `run_results`;
the schema constraint `UNIQUE (run_item_id)` makes a second result for the
same run item a uniqueness violation, reported as `Conflict` (spec section 7
taxonomy). -/
def insertResult (db : DB) (res : RunResult) : Except Err DB :=
  if db.runResults.any (fun r => r.runItemId = res.runItemId) then
    Except.error Err.Conflict
  else Except.ok { db with runResults := db.runResults ++ [res] }

/-- Modelled from the spec: `addItem` — permitted only in `draft` and
`in_progress`, fails with `RunLocked` on a locked run, always binds to an
existing TestCaseVersion, and respects `UNIQUE (run_id, testcase_version_id)`
(spec 4.3). -/
def addItem (db : DB) (rid vid pos : Nat) (req : Bool) (newItemId : Nat) :
    Except Err DB :=
  match findRun db rid with
  | none => Except.error Err.NotFound
  | some r =>
    if r.status = RunStatus.locked then Except.error Err.RunLocked
    else if r.status ≠ RunStatus.draft ∧ r.status ≠ RunStatus.in_progress then
      Except.error Err.InvalidTransition
    else
      match db.versions.find? (fun v => v.id = vid) with
      | none => Except.error Err.NotFound
      | some _ =>
        if db.runItems.any (fun i => i.runId = rid ∧ i.testcaseVersionId = vid) then
          Except.error Err.Conflict
        else
          Except.ok { db with runItems := db.runItems ++ [⟨newItemId, rid, vid, pos, req⟩] }

/-- Modelled from the spec: `removeItem` — permitted only in `draft` and
`in_progress`, fails with `RunLocked` on a locked run; removing an item
cascades to its result (schema `ON DELETE CASCADE` on
`run_results.run_item_id`). -/
def removeItem (db : DB) (rid itemId : Nat) : Except Err DB :=
  match findRun db rid with
  | none => Except.error Err.NotFound
  | some r =>
    if r.status = RunStatus.locked then Except.error Err.RunLocked
    else if r.status ≠ RunStatus.draft ∧ r.status ≠ RunStatus.in_progress then
      Except.error Err.InvalidTransition
    else
      match db.runItems.find? (fun i => i.id = itemId ∧ i.runId = rid) with
      | none => Except.error Err.NotFound
      | some _ =>
        Except.ok { db with
          runItems := db.runItems.filter fun i => i.id ≠ itemId,
          runResults := db.runResults.filter fun res => res.runItemId ≠ itemId }

/-- The run owning a given `run_results` row, through its run item. -/
def owningRunOfResult (db : DB) (resId : Nat) : Option Run :=
  match db.runResults.find? (fun res => res.id = resId) with
  | none => none
  | some res =>
    match db.runItems.find? (fun i => i.id = res.runItemId) with
    | none => none
    | some item => findRun db item.runId

/-- Run-scope check of `attach`: when a run id is given, the run must exist
and must not be locked. -/
def attachRunCheck (db : DB) (runId : Option Nat) : Except Err Unit :=
  match runId with
  | none => Except.ok ()
  | some rid =>
    match findRun db rid with
    | none => Except.error Err.NotFound
    | some r =>
      if r.status = RunStatus.locked then Except.error Err.RunLocked
      else Except.ok ()

/-- Result-scope check of `attach`: when a run-result id is given, the result
chain must resolve to a run, and that owning run must not be locked. -/
def attachResCheck (db : DB) (runResultId : Option Nat) : Except Err Unit :=
  match runResultId with
  | none => Except.ok ()
  | some resid =>
    match owningRunOfResult db resid with
    | none => Except.error Err.NotFound
    | some r =>
      if r.status = RunStatus.locked then Except.error Err.RunLocked
      else Except.ok ()

/-- Modelled from the spec: `attach(runId?, runResultId?, fileMeta)` — fails
with `InvalidScope` when neither id is present and with `RunLocked` when the
owning run is locked; otherwise inserts the attachment row (spec 4.4). -/
def attach (db : DB) (runId runResultId : Option Nat)
    (storageKey mimeType : String) (sizeBytes newId : Nat) : Except Err DB :=
  if runId = none ∧ runResultId = none then Except.error Err.InvalidScope
  else
    match attachRunCheck db runId, attachResCheck db runResultId with
    | Except.error e, _ => Except.error e
    | Except.ok _, Except.error e => Except.error e
    | Except.ok _, Except.ok _ =>
      Except.ok { db with attachments := db.attachments ++
        [⟨newId, runId, runResultId, storageKey, mimeType, sizeBytes⟩] }

/-- Largest `version_number` already used by the given test case (0 when the
test case has no versions yet). -/
def maxVersionNumber (db : DB) (tcId : Nat) : Nat :=
  ((db.versions.filter fun v => v.testcaseId = tcId).map
    TestCaseVersion.versionNumber).foldr max 0

/-- Modelled from the spec: `publishVersion(testcaseId, content)` — allocates
`version_number = max(existing) + 1`, rejects an archived test case, fails
with `NotFound` when the test case does not exist, and only ever appends a
new `testcase_versions` row (spec 4.1, missing Rust backend). -/
def publishVersion (db : DB) (tcId : Nat) (content : VersionContent)
    (newId createdAt : Nat) : Except Err DB :=
  match db.testcases.find? (fun tc => tc.id = tcId) with
  | none => Except.error Err.NotFound
  | some tc =>
    if tc.isArchived then Except.error Err.Conflict
    else
      Except.ok { db with versions := db.versions ++
        [⟨newId, tcId, maxVersionNumber db tcId + 1, content, createdAt⟩] }

/-- Modelled from the schema: deleting a `testcase_versions` row directly;
`run_items.testcase_version_id` carries `ON DELETE RESTRICT`, so the delete
is rejected while any run item references the version. -/
def deleteVersion (db : DB) (vid : Nat) : Except Err DB :=
  match db.versions.find? (fun v => v.id = vid) with
  | none => Except.error Err.NotFound
  | some _ =>
    if db.runItems.any (fun i => i.testcaseVersionId = vid) then
      Except.error Err.Conflict
    else Except.ok { db with versions := db.versions.filter fun v => v.id ≠ vid }

/-- Modelled from the spec: deactivating a fail reason clears its `is_active`
flag only; the row (and hence any historical reference to it) remains. -/
def deactivateFailReason (db : DB) (code : String) : DB :=
  { db with failReasons := db.failReasons.map fun fr =>
      if fr.code = code then { fr with isActive := false } else fr }

/-- Modelled from the spec: the fail reasons offered for new selection are
the active ones; inactive reasons are hidden from new selection. -/
def activeReasonOptions (db : DB) : List FailReasonOption :=
  (db.failReasons.filter fun fr => fr.isActive).map fun fr =>
    ⟨fr.code, fr.title, some fr.description⟩

/-- Runs reachable through the modelled lifecycle: created as a draft and
advanced only by `start`, `finish` and `lock`. -/
inductive ReachableRun : Run → Prop
  | created (id projectId : Nat) (assetId templateId : Option Nat)
      (executedBy : Nat) (correctionOf : Option Nat) :
      ReachableRun (mkDraftRun id projectId assetId templateId executedBy correctionOf)
  | stepStart (r : Run) (now : Nat) (r1 : Run) :
      ReachableRun r → startRunAux r now = Except.ok r1 → ReachableRun r1
  | stepFinish (r : Run) (now : Nat) (r1 : Run) :
      ReachableRun r → finishRunAux r now = Except.ok r1 → ReachableRun r1
  | stepLock (r : Run) (actor now : Nat) (r1 : Run) :
      ReachableRun r → lockRunAux r actor now = Except.ok r1 → ReachableRun r1

/-- A small concrete snapshot used by the witness theorems: an active and an
archived test case, one published version, a locked run holding one item with
a fail result, an in-progress run, an active and an inactive fail reason, and
one attachment on the locked run. -/
def sampleDB : DB :=
  { testcases :=
      [ ⟨1, 1, "rtsp_reconnect", "RTSP reconnect", true, false⟩,
        ⟨2, 1, "old_case", "Old case", true, true⟩ ],
    versions := [⟨10, 1, 1, ⟨"v1", "", "[]", "[]"⟩, 0⟩],
    runs :=
      [ { id := 100, projectId := 1, assetId := some 7, templateId := none,
          status := RunStatus.locked, executedBy := 5, startedAt := some 1,
          finishedAt := some 2, lockedAt := some 3, lockedBy := some 5,
          correctionOfRunId := none },
        { id := 101, projectId := 1, assetId := some 7, templateId := none,
          status := RunStatus.in_progress, executedBy := 5, startedAt := some 4,
          finishedAt := none, lockedAt := none, lockedBy := none,
          correctionOfRunId := none } ],
    runItems := [⟨200, 100, 10, 0, true⟩],
    failReasons :=
      [ ⟨"firmware_bug", "Firmware bug", "", true⟩,
        ⟨"legacy_reason", "Legacy reason", "", false⟩ ],
    runResults := [⟨300, 200, ResultStatus.fail, some "firmware_bug", "", some 5, 2⟩],
    attachments := [⟨400, some 100, none, "key1", "image/png", 1⟩] }

/-- A one-item checklist used by the C10 witness. -/
def sampleChecklist : List ChecklistItem :=
  [⟨"item1", "RTSP stream health", "L0", ResultStatus.na, "", ""⟩]

/-- Status-indexed timestamp shape of a run under the modelled lifecycle. -/
def RunTimestampInv (r : Run) : Prop :=
  (r.status = RunStatus.draft →
    r.startedAt = none ∧ r.finishedAt = none ∧ r.lockedAt = none) ∧
  (r.status = RunStatus.in_progress →
    r.startedAt ≠ none ∧ r.finishedAt = none ∧ r.lockedAt = none) ∧
  (r.status = RunStatus.done →
    r.startedAt ≠ none ∧ r.finishedAt ≠ none ∧ r.lockedAt = none) ∧
  (r.status = RunStatus.locked →
    r.startedAt ≠ none ∧ r.finishedAt ≠ none ∧ r.lockedAt ≠ none)

/-- A run taken through the full lifecycle `draft → in_progress → done →
locked` (started at 1, finished at 2, locked at 3 by user 5). -/
def lockedSampleRun : Run :=
  ⟨1, 1, none, none, RunStatus.locked, 5, some 1, some 2, some 3, some 5, none⟩

/-- C9: `StatusChip` is total over arbitrary input strings — for kind `run`
any value whose trimmed lowercase form is not `in_progress`, `done` or
`locked` renders the default `draft` chip; for kind `result` any value other
than `ok` or `fail` (after trimming and lowercasing) renders the `NA` chip;
recognition goes through `normalize`, hence is case- and
surrounding-whitespace-insensitive. -/
theorem statusChip_total (value size : String) :
    (normalize value ≠ "in_progress" → normalize value ≠ "done" →
      normalize value ≠ "locked" →
      statusChip StatusKind.run value size = ⟨size, "draft", "default", "outlined"⟩) ∧
    (normalize value = "in_progress" →
      statusChip StatusKind.run value size = ⟨size, "in_progress", "info", "filled"⟩) ∧
    (normalize value = "done" →
      statusChip StatusKind.run value size = ⟨size, "done", "success", "filled"⟩) ∧
    (normalize value = "locked" →
      statusChip StatusKind.run value size = ⟨size, "locked", "warning", "filled"⟩) ∧
    (normalize value ≠ "ok" → normalize value ≠ "fail" →
      statusChip StatusKind.result value size = ⟨size, "NA", "default", "outlined"⟩) ∧
    (normalize value = "ok" →
      statusChip StatusKind.result value size = ⟨size, "OK", "success", "filled"⟩) ∧
    (normalize value = "fail" →
      statusChip StatusKind.result value size = ⟨size, "FAIL", "error", "filled"⟩) := by
  refine ⟨?_, ?_, ?_, ?_, ?_, ?_, ?_⟩ <;> intro h
  · intro h2 h3
    simp [statusChip, h, h2, h3]
  · simp [statusChip, h]
  · simp [statusChip, h]
  · simp [statusChip, h]
  · intro h2
    simp [statusChip, h, h2]
  · simp [statusChip, h]
  · simp [statusChip, h]

/-- Witness for C9 at concrete inputs: an unrecognized run status falls back
to the `draft` chip, `" LOCKED "` is recognized despite case and whitespace,
and an unrecognized result status falls back to the `NA` chip. -/
theorem statusChip_total_witness :
    statusChip StatusKind.run "  BOGUS " "small" = ⟨"small", "draft", "default", "outlined"⟩ ∧
    statusChip StatusKind.run " LOCKED " "small" = ⟨"small", "locked", "warning", "filled"⟩ ∧
    statusChip StatusKind.result "??" "small" = ⟨"small", "NA", "default", "outlined"⟩ :=
  ⟨(statusChip_total "  BOGUS " "small").1 (by decide) (by decide) (by decide),
   (statusChip_total " LOCKED " "small").2.2.2.1 (by decide),
   (statusChip_total "??" "small").2.2.2.2.1 (by decide) (by decide)⟩

/-- C10: selecting a fail reason always coerces the item's status to `fail` —
the `onFailReasonChange` handler sets status `fail` on the matching item in
the updated local checklist state, and the result-update request it sends
carries status `fail` together with the chosen reason code. -/
theorem onFailReasonChange_coerces_fail (checklist : List ChecklistItem)
    (itemId code : String) :
    (∀ item ∈ applyFailReasonChange checklist itemId code,
      item.id = itemId →
        item.status = ResultStatus.fail ∧ item.failReasonCode = code) ∧
    (∀ target, checklist.find? (fun i => i.id = itemId) = some target →
      onFailReasonChangeRequest checklist itemId code =
        some ⟨ResultStatus.fail, code, target.comment⟩) := by
  constructor
  · intro item hmem hid
    rw [applyFailReasonChange, List.mem_map] at hmem
    obtain ⟨x, hx, hfx⟩ := hmem
    by_cases hxid : x.id = itemId
    · rw [if_pos hxid] at hfx
      rw [← hfx]
      exact ⟨rfl, rfl⟩
    · rw [if_neg hxid] at hfx
      rw [← hfx] at hid
      exact absurd hid hxid
  · intro target htarget
    unfold onFailReasonChangeRequest updateRunResultRequest
    rw [htarget]
    exact rfl

/-- Witness for C10: on a concrete checklist the handler's request carries
status `fail` with the chosen code, and the updated item in the new local
state has status `fail`. -/
theorem onFailReasonChange_coerces_fail_witness :
    onFailReasonChangeRequest sampleChecklist "item1" "firmware_bug" =
      some ⟨ResultStatus.fail, "firmware_bug", ""⟩ ∧
    ((⟨"item1", "RTSP stream health", "L0", ResultStatus.fail, "", "firmware_bug"⟩ :
        ChecklistItem).status = ResultStatus.fail ∧
      (⟨"item1", "RTSP stream health", "L0", ResultStatus.fail, "", "firmware_bug"⟩ :
        ChecklistItem).failReasonCode = "firmware_bug") :=
  ⟨(onFailReasonChange_coerces_fail sampleChecklist "item1" "firmware_bug").2
      ⟨"item1", "RTSP stream health", "L0", ResultStatus.na, "", ""⟩ (by decide),
   (onFailReasonChange_coerces_fail sampleChecklist "item1" "firmware_bug").1
      ⟨"item1", "RTSP stream health", "L0", ResultStatus.fail, "", "firmware_bug"⟩
      (by decide) (by decide)⟩

/-- C2: `Run.status` moves only forward along
`draft → in_progress → done → locked` with no skipping — `start` succeeds
exactly from `draft` and sets `started_at`, `finish` succeeds exactly from
`in_progress` and sets `finished_at` (regardless of the stored results, so
outstanding `na` results do not block it), `lock` succeeds exactly from
`done`, and every transition attempt from any other state fails with
`InvalidTransition`. -/
theorem run_state_machine (db : DB) (rid now : Nat) (r : Run)
    (hfind : findRun db rid = some r) :
    (r.status = RunStatus.draft →
      startRun db rid now = Except.ok (updateRun db rid fun _ =>
        { r with status := RunStatus.in_progress, startedAt := some now })) ∧
    (r.status ≠ RunStatus.draft →
      startRun db rid now = Except.error Err.InvalidTransition) ∧
    (r.status = RunStatus.in_progress →
      finishRun db rid now = Except.ok (updateRun db rid fun _ =>
        { r with status := RunStatus.done, finishedAt := some now })) ∧
    (r.status ≠ RunStatus.in_progress →
      finishRun db rid now = Except.error Err.InvalidTransition) ∧
    (∀ results : List RunResult, r.status = RunStatus.in_progress →
      (finishRun { db with runResults := results } rid now).isOk = true) ∧
    (∀ actor, r.status = RunStatus.done →
      lockRun db rid actor now = Except.ok (updateRun db rid fun _ =>
        { r with status := RunStatus.locked, lockedAt := some now,
                 lockedBy := some actor })) ∧
    (∀ actor, r.status ≠ RunStatus.done →
      lockRun db rid actor now = Except.error Err.InvalidTransition) := by
  refine ⟨?_, ?_, ?_, ?_, ?_, ?_, ?_⟩
  · intro h
    simp [startRun, hfind, startRunAux, h]
  · intro h
    simp [startRun, hfind, startRunAux, h]
  · intro h
    simp [finishRun, hfind, finishRunAux, h]
  · intro h
    simp [finishRun, hfind, finishRunAux, h]
  · intro results h
    have hfind1 : findRun { db with runResults := results } rid = some r := hfind
    simp [finishRun, hfind1, finishRunAux, h, Except.isOk, Except.toBool]
  · intro actor h
    simp [lockRun, hfind, lockRunAux, h]
  · intro actor h
    simp [lockRun, hfind, lockRunAux, h]

/-- Witness for C2 on the in-progress run of `sampleDB`: `start` fails with
`InvalidTransition`, `finish` succeeds and sets `finished_at`, `lock` fails
with `InvalidTransition`. -/
theorem run_state_machine_witness :
    startRun sampleDB 101 9 = Except.error Err.InvalidTransition ∧
    finishRun sampleDB 101 9 = Except.ok (updateRun sampleDB 101 fun _ =>
      ⟨101, 1, some 7, none, RunStatus.done, 5, some 4, some 9, none, none, none⟩) ∧
    lockRun sampleDB 101 5 9 = Except.error Err.InvalidTransition :=
  ⟨(run_state_machine sampleDB 101 9
      ⟨101, 1, some 7, none, RunStatus.in_progress, 5, some 4, none, none, none, none⟩
      (by decide)).2.1 (by decide),
   (run_state_machine sampleDB 101 9
      ⟨101, 1, some 7, none, RunStatus.in_progress, 5, some 4, none, none, none, none⟩
      (by decide)).2.2.1 rfl,
   (run_state_machine sampleDB 101 9
      ⟨101, 1, some 7, none, RunStatus.in_progress, 5, some 4, none, none, none, none⟩
      (by decide)).2.2.2.2.2.2 5 (by decide)⟩

/-- C3: once a run is locked, every mutating operation on its items, results
and attachments fails with `RunLocked` — `recordResult`, `addItem`,
`removeItem`, and `attach` through either the run scope or a result scope
owned by the run — while calling `lock` again fails with `InvalidTransition`
instead of performing a second transition. -/
theorem locked_run_rejects_mutation (db : DB) (rid : Nat) (r : Run)
    (hfind : findRun db rid = some r) (hlocked : r.status = RunStatus.locked) :
    (∀ itemId st reason comment uid now newResultId,
      recordResult db rid itemId st reason comment uid now newResultId =
        Except.error Err.RunLocked) ∧
    (∀ vid pos req newItemId,
      addItem db rid vid pos req newItemId = Except.error Err.RunLocked) ∧
    (∀ itemId, removeItem db rid itemId = Except.error Err.RunLocked) ∧
    (∀ runResultId sk mt sz nid,
      attach db (some rid) runResultId sk mt sz nid = Except.error Err.RunLocked) ∧
    (∀ resid sk mt sz nid, owningRunOfResult db resid = some r →
      attach db none (some resid) sk mt sz nid = Except.error Err.RunLocked) ∧
    (∀ actor now, lockRun db rid actor now = Except.error Err.InvalidTransition) := by
  refine ⟨?_, ?_, ?_, ?_, ?_, ?_⟩
  · intro itemId st reason comment uid now newResultId
    simp [recordResult, hfind, hlocked]
  · intro vid pos req newItemId
    simp [addItem, hfind, hlocked]
  · intro itemId
    simp [removeItem, hfind, hlocked]
  · intro runResultId sk mt sz nid
    simp [attach, attachRunCheck, hfind, hlocked]
  · intro resid sk mt sz nid howner
    simp [attach, attachRunCheck, attachResCheck, howner, hlocked]
  · intro actor now
    have : r.status ≠ RunStatus.done := by
      rw [hlocked]
      exact fun hc => RunStatus.noConfusion hc
    simp [lockRun, hfind, lockRunAux, this]

/-- Witness for C3 on the locked run of `sampleDB`: recording a result,
adding an item, attaching evidence by run scope or by result scope all fail
with `RunLocked`, and locking again fails with `InvalidTransition`. -/
theorem locked_run_rejects_mutation_witness :
    recordResult sampleDB 100 200 ResultStatus.ok none "" 5 9 301 =
      Except.error Err.RunLocked ∧
    addItem sampleDB 100 10 1 true 201 = Except.error Err.RunLocked ∧
    attach sampleDB (some 100) none "key2" "image/png" 1 401 =
      Except.error Err.RunLocked ∧
    attach sampleDB none (some 300) "key3" "image/png" 1 402 =
      Except.error Err.RunLocked ∧
    lockRun sampleDB 100 5 9 = Except.error Err.InvalidTransition :=
  ⟨(locked_run_rejects_mutation sampleDB 100
      ⟨100, 1, some 7, none, RunStatus.locked, 5, some 1, some 2, some 3, some 5, none⟩
      (by decide) rfl).1 200 ResultStatus.ok none "" 5 9 301,
   (locked_run_rejects_mutation sampleDB 100
      ⟨100, 1, some 7, none, RunStatus.locked, 5, some 1, some 2, some 3, some 5, none⟩
      (by decide) rfl).2.1 10 1 true 201,
   (locked_run_rejects_mutation sampleDB 100
      ⟨100, 1, some 7, none, RunStatus.locked, 5, some 1, some 2, some 3, some 5, none⟩
      (by decide) rfl).2.2.2.1 none "key2" "image/png" 1 401,
   (locked_run_rejects_mutation sampleDB 100
      ⟨100, 1, some 7, none, RunStatus.locked, 5, some 1, some 2, some 3, some 5, none⟩
      (by decide) rfl).2.2.2.2.1 300 "key3" "image/png" 1 402 (by decide),
   (locked_run_rejects_mutation sampleDB 100
      ⟨100, 1, some 7, none, RunStatus.locked, 5, some 1, some 2, some 3, some 5, none⟩
      (by decide) rfl).2.2.2.2.2 5 9⟩

/-- Every run reachable through the modelled lifecycle has the timestamp
shape dictated by its status. -/
theorem reachableRun_timestamps (r : Run) (h : ReachableRun r) :
    RunTimestampInv r := by
  induction h with
  | created id projectId assetId templateId executedBy correctionOf =>
    refine ⟨fun _ => ⟨rfl, rfl, rfl⟩, fun hc => ?_, fun hc => ?_, fun hc => ?_⟩ <;>
      simp [mkDraftRun] at hc
  | stepStart r now r1 _ heq ih =>
    by_cases hst : r.status = RunStatus.draft
    · rw [startRunAux, if_pos hst] at heq
      obtain ⟨hs, -, hl⟩ := ih.1 hst
      cases heq
      refine ⟨fun hc => by simp at hc, fun _ => ⟨by simp, ?_, ?_⟩,
        fun hc => by simp at hc, fun hc => by simp at hc⟩
      · exact ih.1 hst |>.2.1
      · exact hl
    · rw [startRunAux, if_neg hst] at heq
      exact absurd heq (fun hc => Except.noConfusion hc)
  | stepFinish r now r1 _ heq ih =>
    by_cases hst : r.status = RunStatus.in_progress
    · rw [finishRunAux, if_pos hst] at heq
      obtain ⟨hs, -, hl⟩ := ih.2.1 hst
      cases heq
      refine ⟨fun hc => by simp at hc, fun hc => by simp at hc,
        fun _ => ⟨hs, by simp, hl⟩, fun hc => by simp at hc⟩
    · rw [finishRunAux, if_neg hst] at heq
      exact absurd heq (fun hc => Except.noConfusion hc)
  | stepLock r actor now r1 _ heq ih =>
    by_cases hst : r.status = RunStatus.done
    · rw [lockRunAux, if_pos hst] at heq
      obtain ⟨hs, hf, -⟩ := ih.2.2.1 hst
      cases heq
      refine ⟨fun hc => by simp at hc, fun hc => by simp at hc,
        fun hc => by simp at hc, fun _ => ⟨hs, hf, by simp⟩⟩
    · rw [lockRunAux, if_neg hst] at heq
      exact absurd heq (fun hc => Except.noConfusion hc)

/-- C4: for every run arising through the modelled lifecycle, the schema
check `chk_runs_status_timestamps` holds, and `status = locked` holds if and
only if all three of `started_at`, `finished_at`, `locked_at` are non-null
(both directions of the equivalence). -/
theorem run_locked_iff_timestamps (r : Run) (h : ReachableRun r) :
    chkRunsStatusTimestamps r ∧
    (r.status = RunStatus.locked ↔
      r.startedAt ≠ none ∧ r.finishedAt ≠ none ∧ r.lockedAt ≠ none) := by
  have inv := reachableRun_timestamps r h
  constructor
  · cases hst : r.status with
    | draft => exact Or.inl hst
    | in_progress =>
      obtain ⟨hs, -, -⟩ := inv.2.1 hst
      exact Or.inr (Or.inl ⟨hst, hs⟩)
    | done =>
      obtain ⟨hs, hf, -⟩ := inv.2.2.1 hst
      exact Or.inr (Or.inr (Or.inl ⟨hst, hs, hf⟩))
    | locked =>
      obtain ⟨hs, hf, hl⟩ := inv.2.2.2 hst
      exact Or.inr (Or.inr (Or.inr ⟨hst, hs, hf, hl⟩))
  · constructor
    · exact fun hst => inv.2.2.2 hst
    · rintro ⟨hs, hf, hl⟩
      cases hst : r.status with
      | draft => exact absurd (inv.1 hst).1 hs
      | in_progress => exact absurd (inv.2.1 hst).2.1 hf
      | done => exact absurd (inv.2.2.1 hst).2.2 hl
      | locked => rfl

/-- Witness for C4: the concrete run reached by `create → start → finish →
lock` satisfies the schema check, and the equivalence holds on it. -/
theorem run_locked_iff_timestamps_witness :
    chkRunsStatusTimestamps lockedSampleRun ∧
    (lockedSampleRun.status = RunStatus.locked ↔
      lockedSampleRun.startedAt ≠ none ∧ lockedSampleRun.finishedAt ≠ none ∧
      lockedSampleRun.lockedAt ≠ none) :=
  run_locked_iff_timestamps lockedSampleRun
    (ReachableRun.stepLock
      ⟨1, 1, none, none, RunStatus.done, 5, some 1, some 2, none, none, none⟩ 5 3
      lockedSampleRun
      (ReachableRun.stepFinish
        ⟨1, 1, none, none, RunStatus.in_progress, 5, some 1, none, none, none, none⟩ 2
        ⟨1, 1, none, none, RunStatus.done, 5, some 1, some 2, none, none, none⟩
        (ReachableRun.stepStart (mkDraftRun 1 1 none none 5 none) 1
          ⟨1, 1, none, none, RunStatus.in_progress, 5, some 1, none, none, none, none⟩
          (ReachableRun.created 1 1 none none 5 none) rfl) rfl) rfl)

/-- Every element of a list of naturals is bounded by the fold of `max`
seeded with 0. -/
theorem le_foldr_max (l : List Nat) (x : Nat) (hx : x ∈ l) :
    x ≤ l.foldr max 0 := by
  induction l with
  | nil => cases hx
  | cons a l ih =>
    rcases List.mem_cons.mp hx with rfl | h
    · exact le_max_left _ _
    · exact le_trans (ih h) (le_max_right _ _)

/-- C1: every run item references a TestCaseVersion (never a TestCase
directly): the pair `(run_id, testcase_version_id)` is unique per run, the
referenced version exists, a version referenced by a run item cannot be
deleted, and publishing a later version leaves the version a run item is
bound to verbatim unchanged. -/
theorem runItem_version_binding (db : DB) (hwf : WF db) :
    (db.runItems.map fun i => (i.runId, i.testcaseVersionId)).Nodup ∧
    (∀ item ∈ db.runItems, ∃ v ∈ db.versions, v.id = item.testcaseVersionId) ∧
    (∀ item ∈ db.runItems,
      deleteVersion db item.testcaseVersionId = Except.error Err.Conflict) ∧
    (∀ item ∈ db.runItems, ∀ tcId content newId t db1,
      publishVersion db tcId content newId t = Except.ok db1 →
      db1.versions.find? (fun v => v.id = item.testcaseVersionId) =
        db.versions.find? (fun v => v.id = item.testcaseVersionId)) := by
  obtain ⟨hver, hruns, ⟨hitemIds, hpairs, hfk⟩, hres, hfr, hatt⟩ := hwf
  have hfindsome : ∀ item ∈ db.runItems,
      ∃ v0, db.versions.find? (fun v => v.id = item.testcaseVersionId) = some v0 := by
    intro item hmem
    obtain ⟨v, hv, hvid⟩ := (hfk item hmem).2
    apply Option.isSome_iff_exists.mp
    rw [List.find?_isSome]
    exact ⟨v, hv, by simp [hvid]⟩
  refine ⟨hpairs, fun item hmem => (hfk item hmem).2, ?_, ?_⟩
  · intro item hmem
    obtain ⟨v0, hv0⟩ := hfindsome item hmem
    have hany : db.runItems.any
        (fun i => i.testcaseVersionId = item.testcaseVersionId) = true := by
      rw [List.any_eq_true]
      exact ⟨item, hmem, by simp⟩
    simp [deleteVersion, hv0, hany]
  · intro item hmem tcId content newId t db1 hpub
    obtain ⟨v0, hv0⟩ := hfindsome item hmem
    cases hfindtc : db.testcases.find? (fun tc => tc.id = tcId) with
    | none => simp [publishVersion, hfindtc] at hpub
    | some tc =>
      by_cases harch : tc.isArchived
      · simp [publishVersion, hfindtc, harch] at hpub
      · simp only [publishVersion, hfindtc, harch, if_false, Bool.false_eq_true,
          if_neg, Except.ok.injEq] at hpub
        rw [← hpub]
        rw [List.find?_append, hv0]
        rfl

/-- C5: every run item has at most one result, every result has exactly one
owning run item, and inserting a second result for the same run item fails
with `Conflict`. -/
theorem runResult_one_per_item (db : DB) (hwf : WF db) :
    (∀ r1 ∈ db.runResults, ∀ r2 ∈ db.runResults,
      r1.runItemId = r2.runItemId → r1 = r2) ∧
    (∀ res ∈ db.runResults, ∃ item ∈ db.runItems, item.id = res.runItemId ∧
      ∀ item2 ∈ db.runItems, item2.id = res.runItemId → item2 = item) ∧
    (∀ res ∈ db.runResults, ∀ newRes : RunResult,
      newRes.runItemId = res.runItemId →
      insertResult db newRes = Except.error Err.Conflict) := by
  obtain ⟨hver, hruns, ⟨hitemIds, hpairs, hitemFk⟩, ⟨hresIds, hkeyNodup, hresFk⟩,
    hfr, hatt⟩ := hwf
  refine ⟨?_, ?_, ?_⟩
  · intro r1 h1 r2 h2 heq
    exact List.inj_on_of_nodup_map hkeyNodup h1 h2 heq
  · intro res hmem
    obtain ⟨⟨item, hitem, hid⟩, -⟩ := hresFk res hmem
    refine ⟨item, hitem, hid, ?_⟩
    intro item2 hmem2 hid2
    exact List.inj_on_of_nodup_map hitemIds hmem2 hitem (by rw [hid2, hid])
  · intro res hmem newRes hkey
    have hany : db.runResults.any
        (fun r => r.runItemId = newRes.runItemId) = true := by
      rw [List.any_eq_true]
      exact ⟨res, hmem, by simp [hkey]⟩
    simp [insertResult, hany]

/-- C6: `publishVersion` allocates `version_number = max(existing) + 1` for
the test case, strictly above every existing version number of that test
case; it rejects an archived test case; and it only appends — every
persisted version row is carried over unchanged. -/
theorem publishVersion_allocates (db : DB) (tcId : Nat)
    (content : VersionContent) (newId t : Nat) (tc : TestCase)
    (hfind : db.testcases.find? (fun x => x.id = tcId) = some tc) :
    (tc.isArchived = true →
      publishVersion db tcId content newId t = Except.error Err.Conflict) ∧
    (tc.isArchived = false →
      publishVersion db tcId content newId t = Except.ok { db with versions :=
        db.versions ++ [⟨newId, tcId, maxVersionNumber db tcId + 1, content, t⟩] } ∧
      (∀ v ∈ db.versions, v.testcaseId = tcId →
        v.versionNumber < maxVersionNumber db tcId + 1) ∧
      ∀ db1, publishVersion db tcId content newId t = Except.ok db1 →
        ∀ v ∈ db.versions, v ∈ db1.versions) := by
  refine ⟨?_, ?_⟩
  · intro harch
    simp [publishVersion, hfind, harch]
  · intro harch
    refine ⟨by simp [publishVersion, hfind, harch], ?_, ?_⟩
    · intro v hv hvtc
      have hle : v.versionNumber ≤ maxVersionNumber db tcId := by
        apply le_foldr_max
        rw [List.mem_map]
        exact ⟨v, List.mem_filter.mpr ⟨hv, by simp [hvtc]⟩, rfl⟩
      omega
    · intro db1 hpub v hv
      simp only [publishVersion, hfind, harch, Bool.false_eq_true, if_false,
        if_neg, Except.ok.injEq] at hpub
      rw [← hpub]
      exact List.mem_append_left _ hv

/-- C7: every attachment references at least one of run or run result — the
schema constraint holds on every well-formed snapshot, `attach` with neither
id fails with `InvalidScope`, and any successful `attach` leaves every
attachment (including the new one) with at least one owner. -/
theorem attachment_scope (db : DB) (hwf : WF db) :
    (∀ a ∈ db.attachments, a.runId ≠ none ∨ a.runResultId ≠ none) ∧
    (∀ sk mt sz nid,
      attach db none none sk mt sz nid = Except.error Err.InvalidScope) ∧
    (∀ runId runResultId sk mt sz nid db1,
      attach db runId runResultId sk mt sz nid = Except.ok db1 →
      ∀ a ∈ db1.attachments, a.runId ≠ none ∨ a.runResultId ≠ none) := by
  obtain ⟨hver, hruns, hitems, hres, hfr, ⟨hattIds, hscope⟩⟩ := hwf
  refine ⟨fun a ha => (hscope a ha).1, ?_, ?_⟩
  · intro sk mt sz nid
    simp [attach]
  · intro runId runResultId sk mt sz nid db1 hok a ha
    by_cases hboth : runId = none ∧ runResultId = none
    · simp [attach, hboth] at hok
    · unfold attach at hok
      rw [if_neg hboth] at hok
      cases hrc : attachRunCheck db runId with
      | error e => rw [hrc] at hok; simp at hok
      | ok u =>
        cases hresc : attachResCheck db runResultId with
        | error e => rw [hrc, hresc] at hok; simp at hok
        | ok u2 =>
          rw [hrc, hresc] at hok
          simp only [Except.ok.injEq] at hok
          rw [← hok] at ha
          rcases List.mem_append.mp ha with hold | hnew
          · exact (hscope a hold).1
          · rw [List.mem_singleton] at hnew
            rw [hnew]
            rcases runId with - | rid
            · rcases runResultId with - | resid
              · exact absurd ⟨rfl, rfl⟩ hboth
              · exact Or.inr (by simp)
            · exact Or.inl (by simp)

/-- C8: a result's fail reason is an optional reference into the controlled
`fail_reasons` vocabulary; deactivating a reason keeps existing results and
their references valid (the referenced row remains), an inactive reason is
never among the options offered for new selection, while `mergedOptions`
still displays a held value even when it is absent from the offered
options. -/
theorem failReason_vocabulary (db : DB) (hwf : WF db) :
    (∀ res ∈ db.runResults, ∀ c ∈ res.failReasonCode,
      ∃ fr ∈ db.failReasons, fr.code = c) ∧
    (∀ code, (deactivateFailReason db code).runResults = db.runResults ∧
      ∀ res ∈ db.runResults, ∀ c ∈ res.failReasonCode,
        ∃ fr ∈ (deactivateFailReason db code).failReasons, fr.code = c) ∧
    (∀ fr ∈ db.failReasons, fr.isActive = false →
      ∀ opt ∈ activeReasonOptions db, opt.code ≠ fr.code) ∧
    (∀ opts value, value ≠ "" →
      ∃ opt ∈ mergedOptions opts value, opt.code = value) := by
  obtain ⟨hver, hruns, hitems, ⟨hresIds, hkeyNodup, hresFk⟩, hfrNodup, hatt⟩ := hwf
  refine ⟨?_, ?_, ?_, ?_⟩
  · intro res hmem c hc
    exact (hresFk res hmem).2 c hc
  · intro code
    refine ⟨rfl, ?_⟩
    intro res hmem c hc
    obtain ⟨fr, hfr, hcode⟩ := (hresFk res hmem).2 c hc
    refine ⟨if fr.code = code then { fr with isActive := false } else fr, ?_, ?_⟩
    · rw [deactivateFailReason]
      simp only [List.mem_map]
      exact ⟨fr, hfr, rfl⟩
    · by_cases h : fr.code = code
      · rw [if_pos h]
        exact hcode
      · rw [if_neg h]
        exact hcode
  · intro fr hfr hinactive opt hopt heq
    rw [activeReasonOptions, List.mem_map] at hopt
    obtain ⟨fr2, hfr2, hmk⟩ := hopt
    rw [List.mem_filter] at hfr2
    have hcode : fr2.code = fr.code := by rw [← hmk] at heq; exact heq
    have hfr2eq : fr2 = fr :=
      List.inj_on_of_nodup_map hfrNodup hfr2.1 hfr hcode
    have : fr.isActive = true := by
      have h2 := hfr2.2
      rw [hfr2eq] at h2
      exact h2
    rw [hinactive] at this
    exact Bool.false_ne_true this
  · intro opts value hval
    cases hex : opts.any (fun opt => opt.code = value) with
    | true =>
      obtain ⟨opt, hopt, hcode⟩ := List.any_eq_true.mp hex
      refine ⟨opt, ?_, of_decide_eq_true hcode⟩
      rw [mergedOptions, if_neg hval, if_pos hex]
      exact hopt
    | false =>
      refine ⟨⟨value, value, none⟩, ?_, rfl⟩
      rw [mergedOptions, if_neg hval,
        if_neg (fun hc => Bool.false_ne_true (hex ▸ hc))]
      exact List.mem_append_right _ (List.mem_singleton.mpr rfl)

/-- Witness for C1 on `sampleDB`: the version bound to the run item cannot be
deleted, and after publishing `v2` of the same test case the lookup of the
bound version `v1` is unchanged (Scenario D). -/
theorem runItem_version_binding_witness :
    deleteVersion sampleDB 10 = Except.error Err.Conflict ∧
    ({ sampleDB with versions :=
        sampleDB.versions ++ [⟨11, 1, 2, ⟨"v2", "", "[]", "[]"⟩, 5⟩] } :
      DB).versions.find? (fun v => v.id = 10) =
      sampleDB.versions.find? (fun v => v.id = 10) :=
  ⟨(runItem_version_binding sampleDB (by decide)).2.2.1
      ⟨200, 100, 10, 0, true⟩ (by decide),
   (runItem_version_binding sampleDB (by decide)).2.2.2
      ⟨200, 100, 10, 0, true⟩ (by decide) 1 ⟨"v2", "", "[]", "[]"⟩ 11 5
      { sampleDB with versions :=
          sampleDB.versions ++ [⟨11, 1, 2, ⟨"v2", "", "[]", "[]"⟩, 5⟩] }
      rfl⟩

/-- Witness for C5 on `sampleDB`: inserting a second result for run item 200
fails with `Conflict`. -/
theorem runResult_one_per_item_witness :
    insertResult sampleDB ⟨301, 200, ResultStatus.na, none, "", none, 0⟩ =
      Except.error Err.Conflict :=
  (runResult_one_per_item sampleDB (by decide)).2.2
    ⟨300, 200, ResultStatus.fail, some "firmware_bug", "", some 5, 2⟩
    (by decide) ⟨301, 200, ResultStatus.na, none, "", none, 0⟩ rfl

/-- Witness for C6 on `sampleDB`: publishing on the archived test case 2 is
rejected, and publishing on the active test case 1 (whose latest version is
1) appends version number 2. -/
theorem publishVersion_allocates_witness :
    publishVersion sampleDB 2 ⟨"x", "", "[]", "[]"⟩ 12 6 =
      Except.error Err.Conflict ∧
    publishVersion sampleDB 1 ⟨"v2", "", "[]", "[]"⟩ 11 5 =
      Except.ok { sampleDB with versions :=
        sampleDB.versions ++ [⟨11, 1, 2, ⟨"v2", "", "[]", "[]"⟩, 5⟩] } :=
  ⟨(publishVersion_allocates sampleDB 2 ⟨"x", "", "[]", "[]"⟩ 12 6
      ⟨2, 1, "old_case", "Old case", true, true⟩ (by decide)).1 rfl,
   ((publishVersion_allocates sampleDB 1 ⟨"v2", "", "[]", "[]"⟩ 11 5
      ⟨1, 1, "rtsp_reconnect", "RTSP reconnect", true, false⟩ (by decide)).2 rfl).1⟩

/-- Witness for C7 on `sampleDB`: `attach` with neither a run id nor a
run-result id fails with `InvalidScope`. -/
theorem attachment_scope_witness :
    attach sampleDB none none "key4" "image/png" 1 500 =
      Except.error Err.InvalidScope :=
  (attachment_scope sampleDB (by decide)).2.1 "key4" "image/png" 1 500

/-- Witness for C8 on `sampleDB`: deactivating a reason leaves the stored
results untouched, and the inactive reason `legacy_reason` is not offered
where the active `firmware_bug` is. -/
theorem failReason_vocabulary_witness :
    (deactivateFailReason sampleDB "firmware_bug").runResults =
      sampleDB.runResults ∧
    "firmware_bug" ≠ "legacy_reason" :=
  ⟨((failReason_vocabulary sampleDB (by decide)).2.1 "firmware_bug").1,
   (failReason_vocabulary sampleDB (by decide)).2.2.1
      ⟨"legacy_reason", "Legacy reason", "", false⟩ (by decide) rfl
      ⟨"firmware_bug", "Firmware bug", some ""⟩ (by decide)⟩

end Uran
